import Mathlib

/-!
Verification of the gibMacOS_GUI chunklist/file-verification engine
(`src/utils/file_verification.py`) and the resumable downloader
(`src/downloader.py`), via a shallow embedding.

Files are modelled as `List Nat` of byte values; sequential `f.read(n)`
becomes `take`/`drop` on the remaining bytes.  Machine integers are `Nat`
with explicit `% 2 ^ w` where the source wraps.  Fallible code returns
`Except`/`Option`; the chunklist generator is modelled as the list of
pairs it yields together with the exception (if any) it raises.
-/

namespace GibMacOS

/-! ## Byte-string to integer conversions (Python `int.from_bytes`) -/

/-- Little-endian interpretation of a byte list, as `int.from_bytes(data, "little")`. -/
def fromBytesLE (l : List Nat) : Nat := l.foldr (fun b acc => acc * 256 + b) 0

/-- Big-endian interpretation of a byte list, as `int.from_bytes(data, "big")`. -/
def fromBytesBE (l : List Nat) : Nat := l.foldl (fun acc b => acc * 256 + b) 0

/-! ## SHA-256 (hashlib.sha256), 32-bit words as `Nat` mod `2 ^ 32` -/

def rotr32 (x n : Nat) : Nat := ((x >>> n) ||| (x <<< (32 - n))) % 4294967296

def not32 (x : Nat) : Nat := x ^^^ 4294967295

def bsig0 (x : Nat) : Nat := rotr32 x 2 ^^^ rotr32 x 13 ^^^ rotr32 x 22

def bsig1 (x : Nat) : Nat := rotr32 x 6 ^^^ rotr32 x 11 ^^^ rotr32 x 25

def ssig0 (x : Nat) : Nat := rotr32 x 7 ^^^ rotr32 x 18 ^^^ (x >>> 3)

def ssig1 (x : Nat) : Nat := rotr32 x 17 ^^^ rotr32 x 19 ^^^ (x >>> 10)

def chFn (x y z : Nat) : Nat := (x &&& y) ^^^ (not32 x &&& z)

def majFn (x y z : Nat) : Nat := (x &&& y) ^^^ (x &&& z) ^^^ (y &&& z)

def sha256K : List Nat :=
  [1116352408, 1899447441, 3049323471, 3921009573, 961987163,
   1508970993, 2453635748, 2870763221, 3624381080, 310598401,
   607225278, 1426881987, 1925078388, 2162078206, 2614888103,
   3248222580, 3835390401, 4022224774, 264347078, 604807628,
   770255983, 1249150122, 1555081692, 1996064986, 2554220882,
   2821834349, 2952996808, 3210313671, 3336571891, 3584528711,
   113926993, 338241895, 666307205, 773529912, 1294757372,
   1396182291, 1695183700, 1986661051, 2177026350, 2456956037,
   2730485921, 2820302411, 3259730800, 3345764771, 3516065817,
   3600352804, 4094571909, 275423344, 430227734, 506948616,
   659060556, 883997877, 958139571, 1322822218, 1537002063,
   1747873779, 1955562222, 2024104815, 2227730452, 2361852424,
   2428436474, 2756734187, 3204031479, 3329325298]

def sha256H0 : List Nat :=
  [1779033703, 3144134277, 1013904242, 2773480762,
   1359893119, 2600822924, 528734635, 1541459225]

/-- Group bytes into big-endian 32-bit words. -/
def toWords32 : List Nat → List Nat
  | b0 :: b1 :: b2 :: b3 :: rest =>
    (((b0 * 256 + b1) * 256 + b2) * 256 + b3) :: toWords32 rest
  | _ => []

/-- Next message-schedule word from the current schedule. -/
def nextW (ws : List Nat) : Nat :=
  let t := ws.length
  (ssig1 (ws.getD (t - 2) 0) + ws.getD (t - 7) 0 +
    ssig0 (ws.getD (t - 15) 0) + ws.getD (t - 16) 0) % 4294967296

def extendW : Nat → List Nat → List Nat
  | 0, ws => ws
  | n + 1, ws => extendW n (ws ++ [nextW ws])

/-- One SHA-256 compression round on state `[a,b,c,d,e,f,g,h]`. -/
def sha256Round (st : List Nat) (kw : Nat × Nat) : List Nat :=
  match st with
  | [a, b, c, d, e, f, g, h] =>
    let t1 := (h + bsig1 e + chFn e f g + kw.1 + kw.2) % 4294967296
    let t2 := (bsig0 a + majFn a b c) % 4294967296
    [(t1 + t2) % 4294967296, a, b, c, (d + t1) % 4294967296, e, f, g]
  | other => other

def sha256Compress (st block : List Nat) : List Nat :=
  let ws := extendW 48 (toWords32 block)
  let fin := (sha256K.zip ws).foldl sha256Round st
  (st.zip fin).map fun p => (p.1 + p.2) % 4294967296

def toBytesBE4 (n : Nat) : List Nat :=
  [n >>> 24 % 256, n >>> 16 % 256, n >>> 8 % 256, n % 256]

def toBytesBE8 (n : Nat) : List Nat :=
  [n >>> 56 % 256, n >>> 48 % 256, n >>> 40 % 256, n >>> 32 % 256,
   n >>> 24 % 256, n >>> 16 % 256, n >>> 8 % 256, n % 256]

/-- SHA-256 padding: append 0x80, zeros to 56 mod 64, then the bit length as 8 BE bytes. -/
def sha256Pad (msg : List Nat) : List Nat :=
  msg ++ 0x80 :: List.replicate ((120 - (msg.length + 1) % 64) % 64) 0 ++
    toBytesBE8 (msg.length * 8)

def sha256Blocks : Nat → List Nat → List Nat → List Nat
  | 0, st, _ => st
  | n + 1, st, msg => sha256Blocks n (sha256Compress st (msg.take 64)) (msg.drop 64)

/-- SHA-256 digest of a byte list, as `hashlib.sha256(msg).digest()` (32 bytes). -/
def sha256 (msg : List Nat) : List Nat :=
  let p := sha256Pad msg
  (sha256Blocks (p.length / 64) sha256H0 p).foldr (fun w acc => toBytesBE4 w ++ acc) []

/-! ## FileVerification (src/utils/file_verification.py)

`verify_chunklist` is a generator: on each byte list it yields a sequence of
`(chunk_size, chunk_sha256)` pairs and either finishes normally or raises.
We model it as the pair of the yielded list and the raised error (if any). -/

/-- Exceptions raised by `verify_chunklist` (each constructor is one distinct
`ValueError`/`RuntimeError` message in the source). -/
inductive VErr where
  | headerTooShort
  | wrongMagic
  | wrongHeaderSize
  | badFileVersion
  | badChunkMethod
  | badSignatureMethod
  | badChunkCount
  | wrongChunkOffset
  | wrongSignatureOffset
  | chunkTruncated
  | signatureTruncated
  | signatureVerifyFailed
  | hashVerifyFailed
  | missingDigitalSignature
  | extraDataAfterSignature
  deriving Repr, DecidableEq

/-- Python exception classes relevant to `verify_file_against_chunklist`. -/
inductive PyErr where
  | fileNotFoundError
  | valueError
  | runtimeError
  deriving Repr, DecidableEq

/-- Exception class of each `verify_chunklist` error: only the
missing-digital-signature case is a `RuntimeError` (line 122). -/
def VErr.toPyErr : VErr → PyErr
  | .missingDigitalSignature => .runtimeError
  | _ => .valueError

/-- The Apple public modulus `APPLE_EFI_ROM_PUBLIC_KEY_1` (file_verification.py line 19). -/
def APPLE_EFI_ROM_PUBLIC_KEY_1 : Nat :=
  0xc3e748cad9cd384329e10e25a91e43e1a762ff529ade578c935bddf9b13f2179d4855e6fc89e9e29ca12517d17dfa1edce0bebf0ea7b461ffe61d94e2bdf72c196f89acd3536b644064014dae25a15db6bb0852ecbd120916318d1ccdea3c84c92ed743fc176d0baca920d3fcf3158aff731f88ce0623182a8ed67e650515f75745909f07d415f55fc15a35654d118c55a462d37a3acda08612f3f3f6571761efccbcc299aee99b3a4fd6212ccfff5ef37a2c334e871191f7e1c31960e010a54e86fa3f62e6d6905e1cd57732410a3eb0c6b4defdabe9f59bf1618758c751cd56cef851d1c0eaa1c558e37ac108da9089863d20e2e7e4bf475ec66fe6b3efdcf

/-- The constant built at line 107-109 by
`int(f-string of 0x1, 404 f digits, the DigestInfo hex, 64 zero digits, 16)`:
the PKCS#1-v1.5 padded message with the digest position zeroed. -/
def plaintextBase : Nat :=
  0x1ffffffffffffffffffffffffffffffffffffffffffffffffffffffffffffffffffffffffffffffffffffffffffffffffffffffffffffffffffffffffffffffffffffffffffffffffffffffffffffffffffffffffffffffffffffffffffffffffffffffffffffffffffffffffffffffffffffffffffffffffffffffffffffffffffffffffffffffffffffffffffffffffffffffffffffffffffffffffffffffffffffffffffffffffffffffffffffffffffffffffffffffffffffffffffffffffffffffffffffffffffff003031300d0609608648016503040201050004200000000000000000000000000000000000000000000000000000000000000000

/-- The plaintext compared against the decrypted signature (lines 107-109):
the base constant or-ed with the big-endian running digest. -/
def plaintextOfDigest (digest : List Nat) : Nat := plaintextBase ||| fromBytesBE digest

/-- The integer the code derives from the 256 trailing signature bytes
(line 106): `int.from_bytes(data, "little")`. -/
def signatureInteger (sig : List Nat) : Nat := fromBytesLE sig

/-- Modelled from the spec (the wording of claim C2): the signature bytes
"interpreted as a big-endian integer".  Compared against `signatureInteger`,
which is what the source actually computes. -/
def signatureIntegerSpec (sig : List Nat) : Nat := fromBytesBE sig

/-- The signature-method-1 comparison (lines 111-115):
`pow(signature, 0x10001, APPLE_EFI_ROM_PUBLIC_KEY_1) == plaintext`. -/
def sigMethod1Ok (sig digest : List Nat) : Bool :=
  (signatureInteger sig ^ 0x10001) % APPLE_EFI_ROM_PUBLIC_KEY_1 == plaintextOfDigest digest

/-- Parsed fields of `CHUNKLIST_HEADER` = struct `<4sIBBBxQQQ` (36 bytes). -/
structure ChunklistHeader where
  magic : List Nat
  headerSize : Nat
  fileVersion : Nat
  chunkMethod : Nat
  signatureMethod : Nat
  chunkCount : Nat
  chunkOffset : Nat
  signatureOffset : Nat
  deriving Repr, DecidableEq

/-- `CHUNKLIST_HEADER.unpack` on the 36 header bytes: 4-byte magic,
uint32 LE header size, three uint8 fields, one pad byte, three uint64 LE fields. -/
def unpackHeader (b : List Nat) : ChunklistHeader :=
  { magic := b.take 4
    headerSize := fromBytesLE ((b.drop 4).take 4)
    fileVersion := b.getD 8 0
    chunkMethod := b.getD 9 0
    signatureMethod := b.getD 10 0
    chunkCount := fromBytesLE ((b.drop 12).take 8)
    chunkOffset := fromBytesLE ((b.drop 20).take 8)
    signatureOffset := fromBytesLE ((b.drop 28).take 8) }

/-- The header fields of a manifest, when it has at least the 36 header bytes. -/
def headerVals (bytes : List Nat) : Option ChunklistHeader :=
  if 36 ≤ bytes.length then some (unpackHeader (bytes.take 36)) else none

def magicCNKL : List Nat := [0x43, 0x4e, 0x4b, 0x4c]

/-- `CHUNK.unpack` = struct `<I32s`: uint32 LE chunk size, 32-byte sha256. -/
def unpackChunk (b : List Nat) : Nat × List Nat :=
  (fromBytesLE (b.take 4), (b.drop 4).take 32)

/-- The chunk-reading loop (lines 88-95): for `chunk_count` iterations read 36
bytes, raising on truncation, unpacking and yielding each record.  Returns
(yielded pairs, remaining bytes after the loop, raised error if any). -/
def readChunks : Nat → List Nat → List (Nat × List Nat) × List Nat × Option VErr
  | 0, rest => ([], rest, none)
  | n + 1, rest =>
    let data := rest.take 36
    if data.length ≠ 36 then ([], rest.drop 36, some .chunkTruncated)
    else
      let c := unpackChunk data
      let r := readChunks n (rest.drop 36)
      (c :: r.1, r.2.1, r.2.2)

/-- The header-field validation chain of `verify_chunklist` (lines 69-85),
in source order; `none` means every check passed. -/
def headerCheck (h : ChunklistHeader) : Option VErr :=
  if h.magic ≠ magicCNKL then some .wrongMagic
  else if h.headerSize ≠ 36 then some .wrongHeaderSize
  else if h.fileVersion ≠ 1 then some .badFileVersion
  else if h.chunkMethod ≠ 1 then some .badChunkMethod
  else if h.signatureMethod ≠ 1 ∧ h.signatureMethod ≠ 2 then some .badSignatureMethod
  else if h.chunkCount ≤ 0 then some .badChunkCount
  else if h.chunkOffset ≠ 36 then some .wrongChunkOffset
  else if h.signatureOffset ≠ h.chunkOffset + 36 * h.chunkCount then
    some .wrongSignatureOffset
  else none

/-- The signature verification step of `verify_chunklist` (lines 97-122):
reads the signature region from the remaining bytes and returns the raised
error (if any) and the bytes left after the region.  Method 2 raises on both
of its branches; a method outside 1 and 2 (excluded earlier by `headerCheck`)
falls through to the trailing-data check, as the `if`/`elif` chain does. -/
def signatureStep (method : Nat) (digest rest : List Nat) : Option VErr × List Nat :=
  if method = 1 then
    let data := rest.take 256
    if data.length ≠ 256 then (some .signatureTruncated, rest.drop 256)
    else if sigMethod1Ok data digest then (none, rest.drop 256)
    else (some .signatureVerifyFailed, rest.drop 256)
  else if method = 2 then
    let data := rest.take 32
    if data ≠ digest then (some .hashVerifyFailed, rest.drop 32)
    else (some .missingDigitalSignature, rest.drop 32)
  else (none, rest)

/-- `FileVerification.verify_chunklist` on the manifest bytes.  Result: the
list of yielded `(chunk_size, chunk_sha256)` pairs, and the exception the
generator raises (`none` when it finishes normally).  The running SHA-256
(lines 55-56, 93, 98) covers the 36 header bytes and the raw bytes of every
chunk record; after the signature step, line 125 raises if any bytes remain. -/
def verify_chunklist (bytes : List Nat) : List (Nat × List Nat) × Option VErr :=
  if (bytes.take 36).length ≠ 36 then ([], some .headerTooShort)
  else
    match headerCheck (unpackHeader (bytes.take 36)) with
    | some e => ([], some e)
    | none =>
      match readChunks (unpackHeader (bytes.take 36)).chunkCount (bytes.drop 36) with
      | (chunks, _rest, some e) => (chunks, some e)
      | (chunks, rest, none) =>
        match signatureStep (unpackHeader (bytes.take 36)).signatureMethod
            (sha256 (bytes.take (36 + 36 * (unpackHeader (bytes.take 36)).chunkCount)))
            rest with
        | (some e, _) => (chunks, some e)
        | (none, rest2) =>
          if rest2.length ≠ 0 then (chunks, some .extraDataAfterSignature)
          else (chunks, none)

/-- The for-loop body of `verify_file_against_chunklist` (lines 146-155): for
each yielded pair read `chunk_size` bytes from the file, early-returning False
on truncation or digest mismatch.  `none` models an early `return False`;
`some rest` is the unread remainder of the file when the loop finishes. -/
def consumeChunks : List Nat → List (Nat × List Nat) → Option (List Nat)
  | fb, [] => some fb
  | fb, (size, expected) :: rest =>
    let chunkData := fb.take size
    if chunkData.length ≠ size then none
    else if sha256 chunkData ≠ expected then none
    else consumeChunks (fb.drop size) rest

/-- The try-block of `verify_file_against_chunklist` (lines 144-161).  The
chunklist argument is `none` when the chunklist file does not exist, making
`verify_chunklist` raise `FileNotFoundError` (lines 46-47) on its first pull.
After the `with` block of line 145 exits, `f` is closed, so the dedented
`if f.read(1):` at line 158 raises `ValueError` (I/O operation on closed
file); the `return True` at line 161 is unreachable. -/
def verifyFileTryBody (fileBytes : List Nat) (chunklist : Option (List Nat)) :
    Except PyErr Bool :=
  match chunklist with
  | none => .error .fileNotFoundError
  | some cl =>
    let r := verify_chunklist cl
    match consumeChunks fileBytes r.1 with
    | none => .ok false
    | some _ =>
      match r.2 with
      | some e => .error e.toPyErr
      | none => .error .valueError

/-- `FileVerification.verify_file_against_chunklist` (lines 128-164).  The file
argument is `none` when the target file does not exist (the line 141 check
raises before the try-block); `except Exception` (lines 163-164) turns every
exception inside the try-block into `return False`. -/
def verify_file_against_chunklist (file : Option (List Nat))
    (chunklist : Option (List Nat)) : Except PyErr Bool :=
  match file with
  | none => .error .fileNotFoundError
  | some fb =>
    match verifyFileTryBody fb chunklist with
    | .error _ => .ok false
    | .ok b => .ok b

/-! ## Downloader (src/downloader.py)

The network is modelled as an oracle: a list of `NetEvent`s consumed one per
issued request (HEAD or GET).  A response carries its HTTP status, optional
Content-Length header, the body chunks it streams before either finishing or
aborting mid-stream (`midError`, raising a connection error during
`iter_content`).  `netFail` is a connection error / timeout raised by the
request call itself.  The destination file is `Option (List Nat)` (`none` =
does not exist).  Wall-clock sleeping is irrelevant to the claims and elided;
`retryDelay` tracks `self.retry_delay`. -/

inductive NetEvent where
  | response (status : Nat) (contentLength : Option Nat)
      (chunks : List (List Nat)) (midError : Bool)
  | netFail
  deriving Repr, DecidableEq

/-- One issued request, as observed: whether it was the HEAD size probe, the
start of its Range header (`none` = no Range header sent), and the length of
the destination file on disk at the moment of the request (`none` = missing). -/
structure Request where
  isHead : Bool
  rangeStart : Option Nat
  fileLen : Option Nat
  deriving Repr, DecidableEq

structure DLState where
  file : Option (List Nat)
  events : List NetEvent
  retryDelay : Nat
  trace : List Request
  deriving Repr, DecidableEq

def nextEvent : List NetEvent → NetEvent × List NetEvent
  | [] => (.netFail, [])
  | e :: rest => (e, rest)

/-- Outcome of one iteration of the `for attempt in range(...)` body of
`stream_to_file` (lines 218-377). -/
inductive AttemptOutcome where
  | done          -- `return file_path` (line 305)
  | failed        -- a `return None` inside the loop body
  | restartFresh  -- the 416 branch: recursive `stream_to_file` call (321-329)
  | retry         -- `continue`, or the fall-through end of the body
  deriving Repr, DecidableEq

/-- The HEAD size probe of `stream_to_file` (lines 234-247), entered only when
the total is unknown and a resume offset is in play; any `RequestException`
(including a bad status raised by `raise_for_status`) is swallowed, leaving
the total unchanged.  Returns the (possibly updated) total and state. -/
def probeStep (rb : Nat) (total : Int) (ar : Bool) (st : DLState) : Int × DLState :=
  if total = -1 ∧ ar ∧ 0 < rb then
    let (ev, evs) := nextEvent st.events
    let st2 := { st with
      events := evs,
      trace := st.trace ++ [⟨true, none, st.file.map List.length⟩] }
    match ev with
    | .netFail => (total, st2)
    | .response status cl _ _ =>
      if 400 ≤ status then (total, st2) else ((cl.getD 0 : Nat), st2)
  else (total, st)

/-- Handling of the streaming GET outcome (lines 262-377): the
`raise_for_status` HTTP-error handler, the network-error handler, the body
streaming into the file, and the size verification.  Never adds to the trace. -/
def handleGet (rb : Nat) (total : Int) (ar : Bool) (attempt mr : Nat)
    (ev : NetEvent) (st : DLState) : AttemptOutcome × DLState :=
  match ev with
  | .netFail =>
    -- lines 353-367: except (ConnectionError, Timeout)
    if attempt < mr then (.retry, { st with retryDelay := st.retryDelay * 2 })
    else (.failed, st)
  | .response status cl chunks midError =>
    if 400 ≤ status then
      -- lines 310-351: except HTTPError
      if status = 416 ∧ ar ∧ 0 < rb then
        (.restartFresh, { st with file := none })
      else if (status = 429 ∨ status = 500 ∨ status = 502 ∨ status = 503 ∨ status = 504)
          ∧ attempt < mr then
        (.retry, { st with retryDelay := st.retryDelay * 2 })
      else (.failed, st)
    else
      -- lines 265-271: total from the response headers if still unknown
      let total2 : Int := if total = -1 then (cl.getD 0 : Nat) else total
      -- lines 274-286: open "ab" when resuming else "wb", then stream chunks
      let contents := (if ar ∧ 0 < rb then st.file.getD [] else []) ++ chunks.flatten
      let st2 := { st with file := some contents }
      if midError then
        -- exception during iter_content: handled like a network error
        if attempt < mr then (.retry, { st2 with retryDelay := st2.retryDelay * 2 })
        else (.failed, st2)
      else
        -- lines 289-308: size verification (the file was just written, so it exists)
        if 0 < total2 ∧ (contents.length : Int) ≠ total2 then
          if attempt < mr then
            (.retry, { st2 with file := none, retryDelay := st2.retryDelay * 2 })
          else
            -- no `continue` and no `return`: the body ends and the loop advances
            (.retry, st2)
        else (.done, st2)

/-- One attempt of `stream_to_file` (the try/except body, lines 218-377), with
`cancel_event = None` and `callback` irrelevant to the observables: reset the
per-attempt counters (lines 219-220), build the Range header from the
`resume_bytes` parameter (lines 227-231), run the HEAD probe if needed, issue
the streaming GET (lines 256-261) and handle its outcome. -/
def runAttempt (resumeBytes : Nat) (totalBytes : Int) (allowResume : Bool)
    (attempt maxRetries : Nat) (st : DLState) : AttemptOutcome × DLState :=
  let p := probeStep resumeBytes totalBytes allowResume st
  let (ev, evs) := nextEvent p.2.events
  let st2 := { p.2 with
    events := evs,
    trace := p.2.trace ++
      [⟨false, (if allowResume ∧ 0 < resumeBytes then some resumeBytes else none),
        p.2.file.map List.length⟩] }
  handleGet resumeBytes p.1 allowResume attempt maxRetries ev st2

inductive StreamResult where
  | success  -- `return file_path`
  | failure  -- `return None`
  | restart  -- the recursive call of the 416 branch, handled by `stream_to_file`
  deriving Repr, DecidableEq

/-- The `for attempt in range(self.max_retries + 1)` loop of `stream_to_file`.
`fuel` is the number of remaining iterations (`maxRetries + 1 - attempt`).
Only when the loop exhausts its iterations does line 380 restore
`self.retry_delay` to the value captured at line 215 (`origDelay`). -/
def runLoop (resumeBytes : Nat) (totalBytes : Int) (allowResume : Bool)
    (maxRetries origDelay : Nat) : Nat → Nat → DLState → StreamResult × DLState
  | _attempt, 0, st => (.failure, { st with retryDelay := origDelay })
  | attempt, fuel + 1, st =>
    match runAttempt resumeBytes totalBytes allowResume attempt maxRetries st with
    | (.done, st') => (.success, st')
    | (.failed, st') => (.failure, st')
    | (.restartFresh, st') => (.restart, st')
    | (.retry, st') =>
      runLoop resumeBytes totalBytes allowResume maxRetries origDelay (attempt + 1) fuel st'

/-- `Downloader.stream_to_file` (lines 186-381) with `parent_window = None` and
`cancel_event = None`.  The 416 branch re-enters the whole function once with
`resume_bytes = 0`, `total_bytes = -1`, `allow_resume = False` on the state in
which the partial file was already deleted; with resume disabled that second
run can never signal `restart` again (`runLoop_no_restart` below), so its
result is returned as-is. -/
def stream_to_file (resumeBytes : Nat) (totalBytes : Int) (allowResume : Bool)
    (maxRetries : Nat) (st : DLState) : StreamResult × DLState :=
  -- lines 200-213: existing file and no resume offset: skip, return None
  if st.file.isSome ∧ resumeBytes = 0 then (.failure, st)
  else
    match runLoop resumeBytes totalBytes allowResume maxRetries st.retryDelay 0
        (maxRetries + 1) st with
    | (.restart, st') =>
      match runLoop 0 (-1) false maxRetries st'.retryDelay 0 (maxRetries + 1) st' with
      | (.restart, st'') => (.failure, st'')  -- unreachable with allowResume = false
      | r => r
    | r => r

/-- The retry loop of `Downloader.get_string` (lines 138-160): non-streaming
GET; any `RequestException` (bad status via `raise_for_status`, connection
error, timeout, or a mid-body error) doubles `retry_delay` and retries while
attempts remain.  Success returns the body bytes; `retry_delay` is never
reset.  `get_bytes` (lines 162-184) is the same code modulo decoding. -/
def getStringLoop (maxRetries : Nat) : Nat → Nat → DLState → Option (List Nat) × DLState
  | _attempt, 0, st => (none, st)
  | attempt, fuel + 1, st =>
    let (ev, evs) := nextEvent st.events
    let st := { st with
      events := evs,
      trace := st.trace ++ [⟨false, none, st.file.map List.length⟩] }
    match ev with
    | .netFail =>
      if attempt < maxRetries then
        getStringLoop maxRetries (attempt + 1) fuel { st with retryDelay := st.retryDelay * 2 }
      else (none, st)
    | .response status _ chunks midError =>
      if 400 ≤ status ∨ midError then
        if attempt < maxRetries then
          getStringLoop maxRetries (attempt + 1) fuel { st with retryDelay := st.retryDelay * 2 }
        else (none, st)
      else (some chunks.flatten, st)

def get_string (maxRetries : Nat) (st : DLState) : Option (List Nat) × DLState :=
  getStringLoop maxRetries 0 (maxRetries + 1) st

/-! ## Reference values for the claims -/

/-- Modelled from the spec (the wording of claim C2, its fixed padding bytes): the
PKCS#1-v1.5 EMSA padding bytes for a 2048-bit modulus and a 51-byte
DigestInfo: `00 01`, 202 bytes of `ff`, `00`. -/
def pkcs1Padding : List Nat := [0x00, 0x01] ++ List.replicate 202 0xff ++ [0x00]

/-- Modelled from the spec (the wording of claim C2, its SHA-256 OID): the DER
DigestInfo header for SHA-256 that precedes the 32 digest bytes. -/
def sha256DigestInfo : List Nat :=
  [0x30, 0x31, 0x30, 0x0d, 0x06, 0x09, 0x60, 0x86, 0x48, 0x01, 0x65,
   0x03, 0x04, 0x02, 0x01, 0x05, 0x00, 0x04, 0x20]

/-- A concrete 256-byte signature field: 0x01 followed by 255 zero bytes. -/
def oneThenZeros : List Nat := 1 :: List.replicate 255 0

/-- Scenario for C5: five bytes already on disk, `resume_bytes = 5`, expected
total 10; the response of the first attempt streams only 3 bytes, so the size check
fails (8 ≠ 10) and the retry machinery runs. -/
def mismatchScenario : DLState :=
  { file := some [7, 7, 7, 7, 7],
    events := [.response 200 (some 3) [[1, 2, 3]] false,
               .response 200 (some 5) [[9, 9, 9, 9, 9]] false],
    retryDelay := 3, trace := [] }

/-- Scenario for C6: five bytes already on disk, `resume_bytes = 5`; the first
attempt gets a response that streams 3 bytes and then aborts mid-stream (a retryable
connection error), leaving 8 bytes on disk at retry time. -/
def midErrorScenario : DLState :=
  { file := some [7, 7, 7, 7, 7],
    events := [.response 200 none [[1, 2, 3]] true],
    retryDelay := 3, trace := [] }

/-- Scenario for C7: `get_string` hits one network failure, then succeeds. -/
def getStringScenario : DLState :=
  { file := none,
    events := [.netFail, .response 200 none [[97]] false],
    retryDelay := 3, trace := [] }

/-- A well-formed signature-method-2 manifest: CNKL header declaring one chunk
and signature method 2, one chunk record (size 12, the SHA-256 of the ASCII
bytes of a 12-byte chunk), and the matching 32-byte bare hash. -/
def method2Manifest : List Nat :=
  [67, 78, 75, 76, 36, 0, 0, 0, 1, 1, 2, 0,
   1, 0, 0, 0, 0, 0, 0, 0, 36, 0, 0, 0, 0, 0, 0, 0, 72, 0, 0, 0, 0, 0, 0, 0,
   12, 0, 0, 0,
   117, 9, 229, 189, 160, 199, 98, 210, 186, 199, 249, 13, 117, 139, 91, 34,
   99, 250, 1, 204, 188, 84, 42, 181, 227, 223, 22, 59, 224, 142, 108, 169,
   134, 166, 21, 50, 154, 50, 229, 43, 187, 22, 227, 187, 226, 91, 151, 99,
   196, 156, 130, 65, 57, 39, 81, 246, 251, 238, 229, 31, 15, 118, 5, 153]

/-- A 36-byte header whose magic is `XNKL` instead of `CNKL` (all other
fields well-formed for one chunk, signature method 1). -/
def badMagicHeader : List Nat :=
  [88, 78, 75, 76, 36, 0, 0, 0, 1, 1, 1, 0,
   1, 0, 0, 0, 0, 0, 0, 0, 36, 0, 0, 0, 0, 0, 0, 0, 72, 0, 0, 0, 0, 0, 0, 0]

/-- A 36-byte header declaring zero chunks, with every other field valid
(magic CNKL, header size 36, version 1, chunk method 1, signature method 1,
chunk offset 36, signature offset 36 = 36 + 36 * 0). -/
def zeroCountHeader : List Nat :=
  [67, 78, 75, 76, 36, 0, 0, 0, 1, 1, 1, 0,
   0, 0, 0, 0, 0, 0, 0, 0, 36, 0, 0, 0, 0, 0, 0, 0, 36, 0, 0, 0, 0, 0, 0, 0]

/-! # Theorems -/

/-! ## Helper lemmas on byte-to-integer conversions -/

theorem foldlBE_acc (l : List Nat) (a : Nat) :
    l.foldl (fun acc b => acc * 256 + b) a = a * 256 ^ l.length + fromBytesBE l := by
  induction l generalizing a with
  | nil => simp [fromBytesBE]
  | cons b t ih =>
    simp only [List.foldl_cons, List.length_cons, fromBytesBE]
    rw [ih, ih]
    ring

theorem fromBytesBE_append (xs ys : List Nat) :
    fromBytesBE (xs ++ ys) = fromBytesBE xs * 256 ^ ys.length + fromBytesBE ys := by
  unfold fromBytesBE
  rw [List.foldl_append, foldlBE_acc]
  rfl

theorem fromBytesBE_lt (l : List Nat) (h : ∀ b ∈ l, b < 256) :
    fromBytesBE l < 256 ^ l.length := by
  induction l with
  | nil => simp [fromBytesBE]
  | cons b t ih =>
    have hb : b < 256 := h b (List.mem_cons_self b t)
    have ht : fromBytesBE t < 256 ^ t.length := ih fun x hx => h x (List.mem_cons_of_mem b hx)
    have : fromBytesBE (b :: t) = b * 256 ^ t.length + fromBytesBE t := by
      unfold fromBytesBE
      simp only [List.foldl_cons]
      rw [foldlBE_acc]
      simp [fromBytesBE]
    rw [this]
    calc b * 256 ^ t.length + fromBytesBE t
        < b * 256 ^ t.length + 256 ^ t.length := by omega
      _ = (b + 1) * 256 ^ t.length := by ring
      _ ≤ 256 * 256 ^ t.length := by
          exact Nat.mul_le_mul_right _ (by omega)
      _ = 256 ^ (b :: t).length := by
          simp [List.length_cons, Nat.pow_succ, Nat.mul_comm]

set_option maxRecDepth 100000 in
/-- The or-with-a-constant construction of lines 107-109 equals the big-endian
value of the concatenated PKCS#1-v1.5 padding, SHA-256 DigestInfo and digest
bytes, for any 32-byte digest. -/
theorem plaintextOfDigest_eq (digest : List Nat) (hl : digest.length = 32)
    (hb : ∀ b ∈ digest, b < 256) :
    plaintextOfDigest digest = fromBytesBE (pkcs1Padding ++ sha256DigestInfo ++ digest) := by
  have hfb : fromBytesBE digest < 2 ^ 256 := by
    have h1 := fromBytesBE_lt digest hb
    rw [hl] at h1
    have h2 : (256 : Nat) ^ 32 = 2 ^ 256 := by norm_num
    omega
  have hsplit : fromBytesBE (pkcs1Padding ++ sha256DigestInfo ++ digest)
      = fromBytesBE (pkcs1Padding ++ sha256DigestInfo) * 256 ^ 32 + fromBytesBE digest := by
    rw [fromBytesBE_append, hl]
  have hc : 2 ^ 256 * fromBytesBE (pkcs1Padding ++ sha256DigestInfo) = plaintextBase := by
    decide
  rw [hsplit]
  unfold plaintextOfDigest
  rw [← hc, ← Nat.mul_add_lt_is_or hfb]
  have h2 : (256 : Nat) ^ 32 = 2 ^ 256 := by norm_num
  rw [h2]
  ring

/-! ## Helper lemmas on `verify_chunklist` -/

/-- When the chunk loop raises no error it consumed exactly `36 * n` bytes. -/
theorem readChunks_none (n : Nat) :
    ∀ rest : List Nat, (readChunks n rest).2.2 = none →
      36 * n ≤ rest.length ∧ (readChunks n rest).2.1 = rest.drop (36 * n) := by
  induction n with
  | zero => intro rest _; simp [readChunks]
  | succ k ih =>
    intro rest h
    by_cases h36 : (rest.take 36).length = 36
    · have hlen : 36 ≤ rest.length := by
        have := List.length_take 36 rest
        omega
      have hrec := ih (rest.drop 36)
      simp only [readChunks, h36, ne_eq, not_true_eq_false, if_false,
        reduceIte] at h ⊢
      refine ⟨?_, ?_⟩
      · have := (hrec h).1
        have hdl : (rest.drop 36).length = rest.length - 36 := List.length_drop 36 rest
        omega
      · have h2 := (hrec h).2
        rw [h2, List.drop_drop]
        congr 1
        omega
    · simp only [readChunks, h36, ne_eq, not_false_eq_true, if_true, reduceIte] at h
      exact Option.noConfusion h

/-- When every header check passed, each individual invariant holds. -/
theorem headerCheck_none_inv (h : ChunklistHeader) (hc : headerCheck h = none) :
    h.magic = magicCNKL ∧ h.headerSize = 36 ∧ h.fileVersion = 1 ∧
    h.chunkMethod = 1 ∧ (h.signatureMethod = 1 ∨ h.signatureMethod = 2) ∧
    0 < h.chunkCount ∧ h.chunkOffset = 36 ∧
    h.signatureOffset = 36 + 36 * h.chunkCount := by
  unfold headerCheck at hc
  split_ifs at hc with h1 h2 h3 h4 h5 h6 h7 h8
  push_neg at h1 h2 h3 h4 h6 h7 h8
  have h5' : h.signatureMethod = 1 ∨ h.signatureMethod = 2 := by
    by_contra hx
    push_neg at hx
    exact h5 ⟨hx.1, hx.2⟩
  exact ⟨h1, h2, h3, h4, h5', by omega, h7, by omega⟩

/-- When the signature step raised no error and the method was a valid one,
the method was 1, the full 256 signature bytes were present, the method-1
comparison succeeded, and exactly 256 bytes were consumed. -/
theorem signatureStep_none (m : Nat) (digest rest : List Nat)
    (hm : m = 1 ∨ m = 2) (h : (signatureStep m digest rest).1 = none) :
    m = 1 ∧ (rest.take 256).length = 256 ∧
    sigMethod1Ok (rest.take 256) digest = true ∧
    (signatureStep m digest rest).2 = rest.drop 256 := by
  rcases hm with hm | hm <;> subst hm
  · have hsnd : (signatureStep 1 digest rest).2 = rest.drop 256 := by
      simp only [signatureStep, eq_self_iff_true, if_true]
      split_ifs <;> rfl
    simp only [signatureStep, eq_self_iff_true, if_true] at h
    split_ifs at h with h1 h2
    push_neg at h1
    exact ⟨rfl, h1, h2, hsnd⟩
  · have h21 : ¬ ((2 : Nat) = 1) := by omega
    simp only [signatureStep, if_neg h21, eq_self_iff_true, if_true] at h
    split_ifs at h

/-- Everything that must have held when `verify_chunklist` finished without an
error: every header invariant passed, the signature method was 1, the manifest
is exactly header + chunk table + 256 signature bytes, and the method-1
signature comparison succeeded on the running digest. -/
theorem verify_chunklist_none_inv (bytes : List Nat)
    (h : (verify_chunklist bytes).2 = none) :
    36 ≤ bytes.length ∧
    (unpackHeader (bytes.take 36)).magic = magicCNKL ∧
    (unpackHeader (bytes.take 36)).headerSize = 36 ∧
    (unpackHeader (bytes.take 36)).fileVersion = 1 ∧
    (unpackHeader (bytes.take 36)).chunkMethod = 1 ∧
    (unpackHeader (bytes.take 36)).signatureMethod = 1 ∧
    0 < (unpackHeader (bytes.take 36)).chunkCount ∧
    (unpackHeader (bytes.take 36)).chunkOffset = 36 ∧
    (unpackHeader (bytes.take 36)).signatureOffset =
      36 + 36 * (unpackHeader (bytes.take 36)).chunkCount ∧
    bytes.length = 36 + 36 * (unpackHeader (bytes.take 36)).chunkCount + 256 ∧
    sigMethod1Ok
      ((bytes.drop (36 + 36 * (unpackHeader (bytes.take 36)).chunkCount)).take 256)
      (sha256 (bytes.take (36 + 36 * (unpackHeader (bytes.take 36)).chunkCount))) = true := by
  unfold verify_chunklist at h
  split at h
  · simp at h
  rename_i h36
  split at h
  · simp at h
  rename_i hhc
  split at h
  · simp at h
  rename_i chunks rest hrc
  split at h
  · simp at h
  rename_i rest2 hss
  by_cases hr2 : rest2.length ≠ 0
  · rw [if_pos hr2] at h
    simp at h
  push_neg at h36 hr2
  have hlen : 36 ≤ bytes.length := by
    have := List.length_take 36 bytes
    omega
  obtain ⟨hmg, hhs, hfv, hcm, hsm, hcc, hco, hso⟩ :=
    headerCheck_none_inv (unpackHeader (bytes.take 36)) hhc
  have hrc22 : (readChunks (unpackHeader (bytes.take 36)).chunkCount (bytes.drop 36)).2.2
      = none := by rw [hrc]
  obtain ⟨hck, hrest⟩ :=
    readChunks_none (unpackHeader (bytes.take 36)).chunkCount (bytes.drop 36) hrc22
  have hrestEq : rest = bytes.drop (36 + 36 * (unpackHeader (bytes.take 36)).chunkCount) := by
    have : (readChunks (unpackHeader (bytes.take 36)).chunkCount (bytes.drop 36)).2.1
        = rest := by rw [hrc]
    rw [this] at hrest
    rw [hrest, List.drop_drop]
  have hss1 : (signatureStep (unpackHeader (bytes.take 36)).signatureMethod
      (sha256 (bytes.take (36 + 36 * (unpackHeader (bytes.take 36)).chunkCount)))
      rest).1 = none := by rw [hss]
  obtain ⟨hm1, htk, hok, hdp⟩ := signatureStep_none _ _ _ hsm hss1
  have hss2 : (signatureStep (unpackHeader (bytes.take 36)).signatureMethod
      (sha256 (bytes.take (36 + 36 * (unpackHeader (bytes.take 36)).chunkCount)))
      rest).2 = rest2 := by rw [hss]
  have hrest2 : rest2 = rest.drop 256 := by rw [← hss2, hdp]
  have hrlen : rest.length = 256 := by
    have h1 : (rest.take 256).length = 256 := htk
    have h2 : (rest.drop 256).length = 0 := by rw [← hrest2]; exact hr2
    have h3 := List.length_take 256 rest
    have h4 := List.length_drop 256 rest
    omega
  have hdl : (bytes.drop 36).length = bytes.length - 36 := List.length_drop 36 bytes
  have hblen : bytes.length = 36 + 36 * (unpackHeader (bytes.take 36)).chunkCount + 256 := by
    have := congrArg List.length hrestEq
    rw [List.length_drop] at this
    omega
  refine ⟨hlen, hmg, hhs, hfv, hcm, hm1, hcc, hco, hso, hblen, ?_⟩
  rw [← hrestEq]
  exact hok


/-! ## Helper lemmas on `verify_file_against_chunklist` -/

/-- The try-block never reaches `return True`: it either early-returns False
or raises (the generator error, or the closed-file read at line 158). -/
theorem verifyFileTryBody_not_true (fb : List Nat) (cl : Option (List Nat)) :
    verifyFileTryBody fb cl ≠ .ok true := by
  unfold verifyFileTryBody
  cases cl with
  | none => simp
  | some c =>
    rcases hx : consumeChunks fb (verify_chunklist c).1 with _ | rest
    · simp [hx]
    · rcases hy : (verify_chunklist c).2 with _ | e <;> simp [hx, hy]

/-- With an existing target file, `verify_file_against_chunklist` returns
`False` on every input: every non-True path of the try-block is either already
`return False` or an exception that `except Exception` maps to False, and the
True path is cut off by the closed-file `f.read(1)` at line 158. -/
theorem verifyFile_some_eq (fb : List Nat) (cl : Option (List Nat)) :
    verify_file_against_chunklist (some fb) cl = .ok false := by
  unfold verify_file_against_chunklist
  cases hb : verifyFileTryBody fb cl with
  | error e => simp [hb]
  | ok b =>
    cases b with
    | false => simp [hb]
    | true => exact absurd hb (verifyFileTryBody_not_true fb cl)

/-! ## Helper lemmas on the downloader model -/

/-- `handleGet` with resume disabled can never take the 416 restart branch. -/
theorem handleGet_no_restart (rb : Nat) (total : Int) (attempt mr : Nat)
    (ev : NetEvent) (st : DLState) :
    (handleGet rb total false attempt mr ev st).1 ≠ .restartFresh := by
  unfold handleGet
  repeat' first
    | decide
    | simp_all
    | split

/-- `handleGet` never adds a request to the trace. -/
theorem handleGet_trace (rb : Nat) (total : Int) (ar : Bool) (attempt mr : Nat)
    (ev : NetEvent) (st : DLState) :
    (handleGet rb total ar attempt mr ev st).2.trace = st.trace := by
  unfold handleGet
  repeat' first
    | rfl
    | split
    | simp only []

/-- The HEAD probe leaves the trace unchanged or appends one HEAD request. -/
theorem probeStep_trace_eq (rb : Nat) (total : Int) (ar : Bool) (st : DLState) :
    (probeStep rb total ar st).2.trace = st.trace ∨
    (probeStep rb total ar st).2.trace =
      st.trace ++ [⟨true, none, st.file.map List.length⟩] := by
  unfold probeStep
  repeat' first
    | (left ; rfl)
    | (right ; rfl)
    | split

/-- With resume disabled an attempt can never take the 416 restart branch. -/
theorem runAttempt_no_restart (rb : Nat) (tb : Int) (attempt mr : Nat) (st : DLState) :
    (runAttempt rb tb false attempt mr st).1 ≠ .restartFresh := by
  unfold runAttempt
  exact handleGet_no_restart _ _ _ _ _ _

/-- With resume disabled the attempt loop never signals a 416 restart. -/
theorem runLoop_no_restart (rb : Nat) (tb : Int) (mr d : Nat) :
    ∀ (fuel attempt : Nat) (st : DLState),
      (runLoop rb tb false mr d attempt fuel st).1 ≠ .restart := by
  intro fuel
  induction fuel with
  | zero => intro attempt st; simp [runLoop]
  | succ k ih =>
    intro attempt st
    rw [runLoop]
    rcases hra : runAttempt rb tb false attempt mr st with ⟨o, st2⟩
    have hno := runAttempt_no_restart rb tb attempt mr st
    rw [hra] at hno
    cases o with
    | done => simp
    | failed => simp
    | restartFresh => exact absurd rfl hno
    | retry => exact ih (attempt + 1) st2



/-- Every request an attempt adds to the trace is either the HEAD probe or a
GET whose Range start is exactly the configured resume offset. -/
theorem runAttempt_rangeStart (rb : Nat) (tb : Int) (ar : Bool) (attempt mr : Nat)
    (st : DLState) :
    ∀ r ∈ (runAttempt rb tb ar attempt mr st).2.trace,
      r ∈ st.trace ∨ r.isHead = true ∨
        r.rangeStart = (if ar ∧ 0 < rb then some rb else none) := by
  intro r hr
  unfold runAttempt at hr
  rw [handleGet_trace] at hr
  simp only [List.mem_append, List.mem_singleton] at hr
  rcases hr with hr | hr
  · rcases probeStep_trace_eq rb tb ar st with hp | hp
    · rw [hp] at hr
      exact Or.inl hr
    · rw [hp] at hr
      simp only [List.mem_append, List.mem_singleton] at hr
      rcases hr with hr | hr
      · exact Or.inl hr
      · subst hr
        exact Or.inr (Or.inl rfl)
  · subst hr
    exact Or.inr (Or.inr rfl)


/-- Every request the attempt loop ever issues (across all retries) is either
pre-existing, the HEAD probe, or a GET whose Range start is exactly the
configured resume offset — never recomputed from the file. -/
theorem runLoop_rangeStart (rb : Nat) (tb : Int) (ar : Bool) (mr d : Nat) :
    ∀ (fuel attempt : Nat) (st : DLState),
      ∀ r ∈ (runLoop rb tb ar mr d attempt fuel st).2.trace,
        r ∈ st.trace ∨ r.isHead = true ∨
          r.rangeStart = (if ar ∧ 0 < rb then some rb else none) := by
  intro fuel
  induction fuel with
  | zero =>
    intro attempt st r hr
    simp only [runLoop] at hr
    exact Or.inl hr
  | succ k ih =>
    intro attempt st r hr
    rw [runLoop] at hr
    rcases hra : runAttempt rb tb ar attempt mr st with ⟨o, st2⟩
    rw [hra] at hr
    have hmem : ∀ x ∈ st2.trace,
        x ∈ st.trace ∨ x.isHead = true ∨
          x.rangeStart = (if ar ∧ 0 < rb then some rb else none) := by
      intro x hx
      have hx2 : x ∈ (runAttempt rb tb ar attempt mr st).2.trace := by
        rw [hra]
        exact hx
      exact runAttempt_rangeStart rb tb ar attempt mr st x hx2
    cases o with
    | done => exact hmem r hr
    | failed => exact hmem r hr
    | restartFresh => exact hmem r hr
    | retry =>
      rcases ih (attempt + 1) st2 r hr with h | h
      · exact hmem r h
      · exact Or.inr h

/-- `get_string` run against `k` network failures followed by a success:
the body is returned and `retry_delay` ends at `d * 2 ^ k` — it is never
reset. -/
theorem getStringLoop_backoff (mr : Nat) :
    ∀ (k attempt : Nat) (rest : List NetEvent) (body : List (List Nat))
      (cl : Option Nat) (file : Option (List Nat)) (tr : List Request) (d : Nat),
      attempt + k ≤ mr →
      (getStringLoop mr attempt (mr + 1 - attempt)
        ⟨file, List.replicate k .netFail ++ .response 200 cl body false :: rest, d, tr⟩).1
        = some body.flatten ∧
      (getStringLoop mr attempt (mr + 1 - attempt)
        ⟨file, List.replicate k .netFail ++ .response 200 cl body false :: rest, d, tr⟩).2.retryDelay
        = d * 2 ^ k := by
  intro k
  induction k with
  | zero =>
    intro attempt rest body cl file tr d hle
    have hf : mr + 1 - attempt = (mr - attempt) + 1 := by omega
    rw [hf]
    simp [getStringLoop, nextEvent]
  | succ j ih =>
    intro attempt rest body cl file tr d hle
    have hf : mr + 1 - attempt = (mr - attempt) + 1 := by omega
    rw [hf]
    simp only [getStringLoop, List.replicate_succ, List.cons_append, nextEvent]
    have hlt : attempt < mr := by omega
    rw [if_pos hlt]
    have hf2 : mr - attempt = mr + 1 - (attempt + 1) := by omega
    rw [hf2]
    have hrec := ih (attempt + 1) rest body cl file
      (tr ++ [⟨false, none, file.map List.length⟩]) (d * 2) (by omega)
    refine ⟨hrec.1, ?_⟩
    rw [hrec.2, pow_succ]
    ring



/-- The HEAD probe never touches `retry_delay`. -/
theorem probeStep_delay (rb : Nat) (total : Int) (ar : Bool) (st : DLState) :
    (probeStep rb total ar st).2.retryDelay = st.retryDelay := by
  unfold probeStep
  repeat' first
    | rfl
    | split

/-- Handling a GET outcome either keeps `retry_delay` or doubles it — it is
never restored to anything else. -/
theorem handleGet_delay (rb : Nat) (total : Int) (ar : Bool) (attempt mr : Nat)
    (ev : NetEvent) (st : DLState) :
    (handleGet rb total ar attempt mr ev st).2.retryDelay = st.retryDelay ∨
    (handleGet rb total ar attempt mr ev st).2.retryDelay = st.retryDelay * 2 := by
  unfold handleGet
  repeat' first
    | (left ; rfl)
    | (right ; rfl)
    | split
    | simp only []

/-- One attempt either keeps `retry_delay` or doubles it. -/
theorem runAttempt_delay (rb : Nat) (tb : Int) (ar : Bool) (attempt mr : Nat)
    (st : DLState) :
    (runAttempt rb tb ar attempt mr st).2.retryDelay = st.retryDelay ∨
    (runAttempt rb tb ar attempt mr st).2.retryDelay = st.retryDelay * 2 := by
  unfold runAttempt
  rcases handleGet_delay rb (probeStep rb tb ar st).1 ar attempt mr
      (nextEvent (probeStep rb tb ar st).2.events).1
      { (probeStep rb tb ar st).2 with
        events := (nextEvent (probeStep rb tb ar st).2.events).2,
        trace := (probeStep rb tb ar st).2.trace ++
          [⟨false, (if ar ∧ 0 < rb then some rb else none),
            (probeStep rb tb ar st).2.file.map List.length⟩] } with h | h <;>
    rw [h] <;> simp [probeStep_delay rb tb ar st]

/-- When the attempt loop does not return None — it returns the file path or
signals the 416 restart — the final `retry_delay` is the running value at loop
entry times a power of two accumulated purely by backoff doublings; in
particular it is never restored to the `origDelay` snapshot, which only the
loop-exhaustion fall-through assigns. -/
theorem runLoop_delay (rb : Nat) (tb : Int) (ar : Bool) (mr d : Nat) :
    ∀ (fuel attempt : Nat) (st : DLState),
      (runLoop rb tb ar mr d attempt fuel st).1 ≠ .failure →
      ∃ k, (runLoop rb tb ar mr d attempt fuel st).2.retryDelay
        = st.retryDelay * 2 ^ k := by
  intro fuel
  induction fuel with
  | zero =>
    intro attempt st h
    simp [runLoop] at h
  | succ n ih =>
    intro attempt st h
    rw [runLoop] at h ⊢
    rcases hra : runAttempt rb tb ar attempt mr st with ⟨o, st2⟩
    rw [hra] at h
    have hd : st2.retryDelay = st.retryDelay ∨ st2.retryDelay = st.retryDelay * 2 := by
      have hda := runAttempt_delay rb tb ar attempt mr st
      rw [hra] at hda
      exact hda
    cases o with
    | done =>
      simp only []
      rcases hd with hd | hd
      · exact ⟨0, by rw [hd, pow_zero, Nat.mul_one]⟩
      · exact ⟨1, by rw [hd, pow_one]⟩
    | failed => simp at h
    | restartFresh =>
      simp only []
      rcases hd with hd | hd
      · exact ⟨0, by rw [hd, pow_zero, Nat.mul_one]⟩
      · exact ⟨1, by rw [hd, pow_one]⟩
    | retry =>
      rcases ih (attempt + 1) st2 h with ⟨k, hk⟩
      rcases hd with hd | hd
      · exact ⟨k, by rw [hk, hd]⟩
      · exact ⟨k + 1, by rw [hk, hd, pow_succ]; ring⟩

/-- The attempt loop run against `k` network failures followed by a completed
response, with no expected size to check (`total_bytes = 0`, as when the
Content-Length header defaults): the loop returns success and `retry_delay`
ends at `d * 2 ^ k`. -/
theorem streamLoop_success_backoff (mr : Nat) (ar : Bool) :
    ∀ (k attempt : Nat) (rest : List NetEvent) (chunks : List (List Nat))
      (cl : Option Nat) (file : Option (List Nat)) (tr : List Request) (d origD : Nat),
      attempt + k ≤ mr →
      (runLoop 0 0 ar mr origD attempt (mr + 1 - attempt)
        ⟨file, List.replicate k .netFail ++ .response 200 cl chunks false :: rest,
          d, tr⟩).1 = .success ∧
      (runLoop 0 0 ar mr origD attempt (mr + 1 - attempt)
        ⟨file, List.replicate k .netFail ++ .response 200 cl chunks false :: rest,
          d, tr⟩).2.retryDelay = d * 2 ^ k := by
  intro k
  induction k with
  | zero =>
    intro attempt rest chunks cl file tr d origD hle
    have hf : mr + 1 - attempt = (mr - attempt) + 1 := by omega
    rw [hf, runLoop]
    have h400 : ¬ ((400 : Nat) ≤ 200) := by omega
    have hra : runAttempt 0 0 ar attempt mr
        ⟨file, .response 200 cl chunks false :: rest, d, tr⟩
        = (.done, ⟨some chunks.flatten, rest, d,
            tr ++ [⟨false, none, file.map List.length⟩]⟩) := by
      unfold runAttempt probeStep nextEvent handleGet
      simp [h400]
    simp only [List.replicate_zero, List.nil_append]
    rw [hra]
    exact ⟨rfl, by simp⟩
  | succ j ih =>
    intro attempt rest chunks cl file tr d origD hle
    have hf : mr + 1 - attempt = (mr - attempt) + 1 := by omega
    rw [hf, runLoop]
    have hlt : attempt < mr := by omega
    have hra : runAttempt 0 0 ar attempt mr
        ⟨file, List.replicate (j + 1) .netFail ++ .response 200 cl chunks false :: rest,
          d, tr⟩
        = (.retry, ⟨file,
            List.replicate j .netFail ++ .response 200 cl chunks false :: rest,
            d * 2, tr ++ [⟨false, none, file.map List.length⟩]⟩) := by
      unfold runAttempt probeStep nextEvent handleGet
      simp [List.replicate_succ, hlt]
    rw [hra]
    have hf2 : mr - attempt = mr + 1 - (attempt + 1) := by omega
    rw [hf2]
    have hrec := ih (attempt + 1) rest chunks cl file
      (tr ++ [⟨false, none, file.map List.length⟩]) (d * 2) origD (by omega)
    refine ⟨hrec.1, ?_⟩
    rw [hrec.2, pow_succ]
    ring

/-- Unpacking `headerVals`. -/
theorem headerVals_some (bytes : List Nat) (f : ChunklistHeader)
    (hf : headerVals bytes = some f) :
    36 ≤ bytes.length ∧ f = unpackHeader (bytes.take 36) := by
  unfold headerVals at hf
  split at hf
  · injection hf with hf2
    exact ⟨by assumption, hf2.symm⟩
  · exact Option.noConfusion hf

/-! ## Claim theorems: file verification -/

/-- C1: the claim states that for every valid chunklist manifest and a target
file holding exactly the manifest's concatenated chunk bytes,
`verify_file_against_chunklist` returns True.  The code instead returns False
for EVERY existing target file — valid pairs included — because the dedented
`if f.read(1):` at line 158 sits outside the `with` block, reads from the
already-closed file, and the resulting ValueError is swallowed by
`except Exception` into `return False`. -/
theorem verify_file_always_false (fileBytes : List Nat)
    (chunklist : Option (List Nat)) :
    verify_file_against_chunklist (some fileBytes) chunklist = .ok false :=
  verifyFile_some_eq fileBytes chunklist

set_option maxRecDepth 40000 in
/-- C2 counterexample: the claim says the 256 trailing signature bytes are
interpreted as a big-endian integer, but line 106 uses
`int.from_bytes(data, "little")`: on the signature field 0x01 followed by 255
zero bytes the integer in the code is 1, not the big-endian 256 ^ 255. -/
theorem signature_integer_not_big_endian :
    signatureInteger oneThenZeros ≠ signatureIntegerSpec oneThenZeros ∧
    signatureInteger oneThenZeros = 1 := by
  constructor
  · decide
  · decide

/-- C2 (amended: the signature bytes are interpreted as a LITTLE-endian
integer; the rest of the claim stands): the method-1 check accepts exactly
when the little-endian signature integer raised to 0x10001 modulo the fixed
public modulus equals the big-endian value of the PKCS#1-v1.5-style padded
encoding (padding bytes, SHA-256 DigestInfo, digest bytes); and whenever
`verify_chunklist` finishes without raising, the method-1 comparison on the
trailing 256 bytes succeeded — any mismatch is a verification failure. -/
theorem signature_method1_little_endian_pkcs1 :
    (∀ sig digest : List Nat, digest.length = 32 → (∀ b ∈ digest, b < 256) →
      (sigMethod1Ok sig digest = true ↔
        (fromBytesLE sig ^ 0x10001) % APPLE_EFI_ROM_PUBLIC_KEY_1 =
          fromBytesBE (pkcs1Padding ++ sha256DigestInfo ++ digest))) ∧
    (∀ bytes : List Nat, (verify_chunklist bytes).2 = none →
      sigMethod1Ok
        ((bytes.drop (36 + 36 * (unpackHeader (bytes.take 36)).chunkCount)).take 256)
        (sha256 (bytes.take (36 + 36 * (unpackHeader (bytes.take 36)).chunkCount)))
        = true) := by
  constructor
  · intro sig digest hl hb
    unfold sigMethod1Ok signatureInteger
    rw [plaintextOfDigest_eq digest hl hb]
    exact beq_iff_eq
  · intro bytes h
    exact (verify_chunklist_none_inv bytes h).2.2.2.2.2.2.2.2.2.2

/-- Witness for the amended C2 at the all-zero signature and digest. -/
theorem signature_method1_little_endian_pkcs1_witness :
    sigMethod1Ok (List.replicate 256 0) (List.replicate 32 0) = true ↔
      (fromBytesLE (List.replicate 256 0) ^ 0x10001) % APPLE_EFI_ROM_PUBLIC_KEY_1 =
        fromBytesBE (pkcs1Padding ++ sha256DigestInfo ++ List.replicate 32 0) :=
  signature_method1_little_endian_pkcs1.1 (List.replicate 256 0)
    (List.replicate 32 0) (by decide) (by decide)

/-- C3: with signature method 2 the generator always raises — a hash mismatch
is a ValueError, a matching bare hash is still a RuntimeError (lines 117-122)
— so for every manifest whose header declares method 2, whatever its trailing
bytes, `verify_chunklist` ends in an error. -/
theorem signature_method2_always_rejected (bytes : List Nat) (f : ChunklistHeader)
    (hf : headerVals bytes = some f) (h2 : f.signatureMethod = 2) :
    ((verify_chunklist bytes).2).isSome := by
  cases hv : (verify_chunklist bytes).2 with
  | some e => rfl
  | none =>
    exfalso
    have hinv := verify_chunklist_none_inv bytes hv
    have hfeq : f = unpackHeader (bytes.take 36) := (headerVals_some bytes f hf).2
    rw [hfeq] at h2
    have h1 := hinv.2.2.2.2.2.1
    omega

/-- Witness for C3 on a concrete well-formed method-2 manifest. -/
theorem signature_method2_always_rejected_witness :
    ((verify_chunklist method2Manifest).2).isSome :=
  signature_method2_always_rejected method2Manifest
    (unpackHeader (method2Manifest.take 36)) (by decide) (by decide)

/-- C4: whenever any header invariant is violated — wrong magic, header size
not 36, file version not 1, chunk method not 1, signature method outside
1 and 2, chunk offset not 36, signature offset not 36 + 36 * count — or any
bytes remain after the declared signature region, `verify_chunklist` raises a
structural error rather than finishing normally. -/
theorem header_violation_raises (bytes : List Nat) (f : ChunklistHeader)
    (hf : headerVals bytes = some f)
    (hviol :
      f.magic ≠ magicCNKL ∨ f.headerSize ≠ 36 ∨ f.fileVersion ≠ 1 ∨
      f.chunkMethod ≠ 1 ∨ (f.signatureMethod ≠ 1 ∧ f.signatureMethod ≠ 2) ∨
      f.chunkOffset ≠ 36 ∨ f.signatureOffset ≠ 36 + 36 * f.chunkCount ∨
      f.signatureOffset + (if f.signatureMethod = 1 then 256 else 32)
        < bytes.length) :
    ((verify_chunklist bytes).2).isSome := by
  cases hv : (verify_chunklist bytes).2 with
  | some e => rfl
  | none =>
    exfalso
    have hfeq : f = unpackHeader (bytes.take 36) := (headerVals_some bytes f hf).2
    subst hfeq
    obtain ⟨hlen, hmg, hhs, hfv, hcm, hsm, hcc, hco, hso, hblen, hok⟩ :=
      verify_chunklist_none_inv bytes hv
    rcases hviol with h | h | h | h | ⟨ha, _⟩ | h | h | h
    · exact h hmg
    · exact h hhs
    · exact h hfv
    · exact h hcm
    · exact ha hsm
    · exact h hco
    · exact h hso
    · rw [hso, hsm] at h
      simp only [eq_self_iff_true, if_true] at h
      omega

/-- Witness for C4 on a header with the wrong magic. -/
theorem header_violation_raises_witness :
    ((verify_chunklist badMagicHeader).2).isSome :=
  header_violation_raises badMagicHeader (unpackHeader (badMagicHeader.take 36))
    (by decide) (Or.inl (by decide))

/-- C9: a manifest whose header declares zero chunks is rejected with a
structural error (line 80-81) before any chunk record is yielded, even when
every other header field is valid. -/
theorem zero_chunk_count_rejected (bytes : List Nat) (f : ChunklistHeader)
    (hf : headerVals bytes = some f) (hcc : f.chunkCount = 0)
    (hmg : f.magic = magicCNKL) (hhs : f.headerSize = 36)
    (hfv : f.fileVersion = 1) (hcm : f.chunkMethod = 1)
    (hsm : f.signatureMethod = 1 ∨ f.signatureMethod = 2)
    (hco : f.chunkOffset = 36) (hso : f.signatureOffset = 36) :
    verify_chunklist bytes = ([], some .badChunkCount) := by
  have hlen : 36 ≤ bytes.length := (headerVals_some bytes f hf).1
  have hfeq : f = unpackHeader (bytes.take 36) := (headerVals_some bytes f hf).2
  subst hfeq
  have h36 : (bytes.take 36).length = 36 := by
    rw [List.length_take]
    omega
  have hhc : headerCheck (unpackHeader (bytes.take 36)) = some .badChunkCount := by
    unfold headerCheck
    rw [if_neg (by simp [hmg]), if_neg (by simp [hhs]), if_neg (by simp [hfv]),
      if_neg (by simp [hcm]),
      if_neg (fun hx => by rcases hsm with h | h; exact hx.1 h; exact hx.2 h),
      if_pos (by omega)]
  unfold verify_chunklist
  rw [if_neg (by simp [h36]), hhc]

/-- Witness for C9 on a concrete zero-count header. -/
theorem zero_chunk_count_rejected_witness :
    verify_chunklist zeroCountHeader = ([], some .badChunkCount) :=
  zero_chunk_count_rejected zeroCountHeader (unpackHeader (zeroCountHeader.take 36))
    (by decide) (by decide) (by decide) (by decide) (by decide) (by decide)
    (Or.inl (by decide)) (by decide) (by decide)

/-- C10: `verify_file_against_chunklist` is asymmetric about missing inputs:
a missing target file raises `FileNotFoundError` before the try-block (lines
141-142), while with an existing target file every error arising from the
manifest — missing chunklist file, structural parse error, signature failure,
I/O error — is swallowed by `except Exception` and the function returns False
instead of raising. -/
theorem missing_file_raises_manifest_errors_swallowed :
    (∀ cl : Option (List Nat),
      verify_file_against_chunklist none cl = .error .fileNotFoundError) ∧
    (∀ (fb : List Nat) (cl : Option (List Nat)),
      verify_file_against_chunklist (some fb) cl = .ok false) := by
  constructor
  · intro cl
    rfl
  · intro fb cl
    exact verifyFile_some_eq fb cl


/-! ## Claim theorems: downloader -/

/-- C5: the claim says a size mismatch on a completed attempt triggers a full
restart from offset zero (file deleted, refetch from byte 0).  In this run
(resume offset 5, expected total 10, the attempt ends with 8 bytes on disk)
the partial file IS deleted, but the retried request still sends
`Range: bytes=5-` and opens the recreated file in append mode: the second
traced request carries range start 5 — not 0 — with the file gone. -/
theorem size_mismatch_retry_keeps_resume_offset :
    (stream_to_file 5 10 true 5 mismatchScenario).2.trace.take 2 =
      [⟨false, some 5, some 5⟩, ⟨false, some 5, none⟩] ∧
    (some 5 : Option Nat) ≠ some 0 := by
  constructor
  · decide
  · decide

/-- C6 counterexample: after a retryable mid-stream connection error the
destination file holds 8 bytes, but the byte-range request of the retry
starts at the original resume offset 5, not at the current file length 8. -/
theorem retry_does_not_resume_from_file_length :
    (stream_to_file 5 10 true 2 midErrorScenario).2.trace.getD 1 ⟨true, none, none⟩ =
      ⟨false, some 5, some 8⟩ ∧
    (some 5 : Option Nat) ≠ some 8 := by
  constructor
  · decide
  · decide

/-- C6 (amended: each retry reissues the byte-range request with the
ORIGINAL resume offset — `Range: bytes=resume_bytes-` when resuming, no Range
header otherwise — and never recomputes it from the current length of the
destination file): every non-HEAD request the attempt loop ever issues carries exactly
that range start. -/
theorem retry_reuses_original_resume_offset (rb : Nat) (tb : Int) (ar : Bool)
    (mr d fuel attempt : Nat) (st : DLState) (h0 : st.trace = []) :
    ∀ r ∈ (runLoop rb tb ar mr d attempt fuel st).2.trace,
      r.isHead = true ∨ r.rangeStart = (if ar ∧ 0 < rb then some rb else none) := by
  intro r hr
  rcases runLoop_rangeStart rb tb ar mr d fuel attempt st r hr with h | h
  · rw [h0] at h
    exact absurd h (List.not_mem_nil r)
  · exact h

/-- Witness for the amended C6: the second request of the mid-stream-error run. -/
theorem retry_reuses_original_resume_offset_witness :
    (⟨false, some 5, some 8⟩ : Request).isHead = true ∨
    (⟨false, some 5, some 8⟩ : Request).rangeStart =
      (if (true : Bool) ∧ 0 < (5 : Nat) then some 5 else none) :=
  retry_reuses_original_resume_offset 5 10 true 2 3 3 0 midErrorScenario rfl
    ⟨false, some 5, some 8⟩ (by decide)

/-- C7 counterexample: `get_string` succeeds on its second attempt but leaves
`retry_delay` at 6, double its value 3 at the start of the call — the
successful terminal outcome does not reset the retry state. -/
theorem success_keeps_doubled_retry_delay :
    ((get_string 5 getStringScenario).1).isSome = true ∧
    getStringScenario.retryDelay = 3 ∧
    (get_string 5 getStringScenario).2.retryDelay = 6 ∧
    (get_string 5 getStringScenario).2.retryDelay ≠ getStringScenario.retryDelay := by
  refine ⟨by decide, by decide, by decide, by decide⟩

/-- C7 (amended: successful terminal outcomes do NOT reset the retry state to
its initial seed — the operation returns with `retry_delay` still at its
accumulated backoff value, so the next independent call starts with the
inflated delay): `get_string`/`get_bytes` returning content after absorbing
`k` retryable failures end with `retry_delay = seed * 2 ^ k`; `stream_to_file`
returning the file path after `k` retryable failures likewise ends at
`seed * 2 ^ k`; and every successful `stream_to_file` call, whatever its
failures, ends with `retry_delay` equal to its entry value times a power of
two produced purely by backoff doublings. -/
theorem success_leaves_accumulated_retry_delay :
    (∀ (mr k : Nat) (rest : List NetEvent) (body : List (List Nat))
        (cl : Option Nat) (file : Option (List Nat)) (d : Nat),
      k ≤ mr →
      (get_string mr ⟨file,
          List.replicate k .netFail ++ .response 200 cl body false :: rest,
          d, []⟩).1 = some body.flatten ∧
      (get_string mr ⟨file,
          List.replicate k .netFail ++ .response 200 cl body false :: rest,
          d, []⟩).2.retryDelay = d * 2 ^ k) ∧
    (∀ (mr k : Nat) (ar : Bool) (rest : List NetEvent) (chunks : List (List Nat))
        (cl : Option Nat) (d : Nat),
      k ≤ mr →
      (stream_to_file 0 0 ar mr ⟨none,
          List.replicate k .netFail ++ .response 200 cl chunks false :: rest,
          d, []⟩).1 = .success ∧
      (stream_to_file 0 0 ar mr ⟨none,
          List.replicate k .netFail ++ .response 200 cl chunks false :: rest,
          d, []⟩).2.retryDelay = d * 2 ^ k) ∧
    (∀ (rb : Nat) (tb : Int) (ar : Bool) (mr : Nat) (st : DLState),
      (stream_to_file rb tb ar mr st).1 = .success →
      ∃ k, (stream_to_file rb tb ar mr st).2.retryDelay = st.retryDelay * 2 ^ k) := by
  refine ⟨?_, ?_, ?_⟩
  · intro mr k rest body cl file d hk
    have h := getStringLoop_backoff mr k 0 rest body cl file [] d (by omega)
    unfold get_string
    simpa using h
  · intro mr k ar rest chunks cl d hk
    have h := streamLoop_success_backoff mr ar k 0 rest chunks cl none [] d d (by omega)
    simp only [Nat.sub_zero] at h
    unfold stream_to_file
    rw [if_neg (by simp)]
    simp only []
    rcases hrl : runLoop 0 0 ar mr d 0 (mr + 1) ⟨none,
        List.replicate k .netFail ++ .response 200 cl chunks false :: rest,
        d, []⟩ with ⟨r, sx⟩
    simp only [hrl] at h ⊢
    rcases h with ⟨h1, h2⟩
    cases r with
    | success => exact ⟨h1, h2⟩
    | failure => exact StreamResult.noConfusion h1
    | restart => exact StreamResult.noConfusion h1
  · intro rb tb ar mr st h
    unfold stream_to_file at h ⊢
    by_cases hskip : st.file.isSome ∧ rb = 0
    · rw [if_pos hskip] at h
      exact absurd h (by simp)
    rw [if_neg hskip] at h ⊢
    rcases h1 : runLoop rb tb ar mr st.retryDelay 0 (mr + 1) st with ⟨r1, s1⟩
    rw [h1] at h
    have hd1 : r1 ≠ .failure →
        ∃ k, s1.retryDelay = st.retryDelay * 2 ^ k := by
      intro hr1
      have hdl := runLoop_delay rb tb ar mr st.retryDelay (mr + 1) 0 st
        (by rw [h1]; exact hr1)
      rw [h1] at hdl
      exact hdl
    cases r1 with
    | success => exact hd1 (by simp)
    | failure => exact StreamResult.noConfusion h
    | restart =>
      simp only [] at h ⊢
      rcases h2 : runLoop 0 (-1) false mr s1.retryDelay 0 (mr + 1) s1 with ⟨r2, s2⟩
      rw [h2] at h
      cases r2 with
      | success =>
        rcases hd1 (by simp) with ⟨k1, hk1⟩
        have hdl2 := runLoop_delay 0 (-1) false mr s1.retryDelay (mr + 1) 0 s1
          (by rw [h2]; simp)
        rw [h2] at hdl2
        rcases hdl2 with ⟨k2, hk2⟩
        simp only [] at hk2
        refine ⟨k1 + k2, ?_⟩
        simp only []
        rw [hk2, hk1, pow_add]
        ring
      | failure => exact StreamResult.noConfusion h
      | restart => exact StreamResult.noConfusion h

/-- Witness for the amended C7: one network failure before success, for both
`get_string` and `stream_to_file`. -/
theorem success_leaves_accumulated_retry_delay_witness :
    ((get_string 5 ⟨none,
        List.replicate 1 .netFail ++ .response 200 none [[97]] false :: [],
        3, []⟩).1 = some ([[97]] : List (List Nat)).flatten ∧
      (get_string 5 ⟨none,
        List.replicate 1 .netFail ++ .response 200 none [[97]] false :: [],
        3, []⟩).2.retryDelay = 3 * 2 ^ 1) ∧
    ((stream_to_file 0 0 true 5 ⟨none,
        List.replicate 1 .netFail ++ .response 200 none [[1, 2, 3]] false :: [],
        3, []⟩).1 = .success ∧
      (stream_to_file 0 0 true 5 ⟨none,
        List.replicate 1 .netFail ++ .response 200 none [[1, 2, 3]] false :: [],
        3, []⟩).2.retryDelay = 3 * 2 ^ 1) :=
  ⟨success_leaves_accumulated_retry_delay.1 5 1 [] [[97]] none none 3 (by omega),
   success_leaves_accumulated_retry_delay.2.1 5 1 true [] [[1, 2, 3]] none 3 (by omega)⟩

/-- C8: an HTTP 416 while resuming (resume offset > 0, resume allowed) first
deletes the partial file and then restarts the whole transfer exactly once
from offset zero with resume disabled: the overall result is that of a fresh
attempt loop run with `resume_bytes = 0`, `total_bytes = -1`,
`allow_resume = False` on the file-deleted state; that fresh loop can never
signal a second restart, and each of its requests is either the recorded 416
request itself, a HEAD probe, or a GET with no Range header. -/
theorem http416_fallback_restarts_fresh (rb : Nat) (tb : Int) (mr : Nat)
    (fb : List Nat) (d : Nat) (cl : Option Nat) (chunks : List (List Nat))
    (me : Bool) (evs : List NetEvent) (h0 : 0 < rb) (ht : tb ≠ -1) :
    stream_to_file rb tb true mr ⟨some fb, .response 416 cl chunks me :: evs, d, []⟩ =
      runLoop 0 (-1) false mr d 0 (mr + 1)
        ⟨none, evs, d, [⟨false, some rb, some fb.length⟩]⟩ ∧
    (runLoop 0 (-1) false mr d 0 (mr + 1)
        ⟨none, evs, d, [⟨false, some rb, some fb.length⟩]⟩).1 ≠ .restart ∧
    (∀ r ∈ (runLoop 0 (-1) false mr d 0 (mr + 1)
        ⟨none, evs, d, [⟨false, some rb, some fb.length⟩]⟩).2.trace,
      r = ⟨false, some rb, some fb.length⟩ ∨ r.isHead = true ∨
        r.rangeStart = none) := by
  refine ⟨?_, runLoop_no_restart 0 (-1) mr d (mr + 1) 0 _, ?_⟩
  · have hra : runAttempt rb tb true 0 mr
        ⟨some fb, .response 416 cl chunks me :: evs, d, []⟩
        = (.restartFresh, ⟨none, evs, d, [⟨false, some rb, some fb.length⟩]⟩) := by
      unfold runAttempt probeStep nextEvent handleGet
      rw [if_neg (by simp [ht])]
      simp [h0]
    unfold stream_to_file
    rw [if_neg (by simp [Nat.pos_iff_ne_zero.mp h0])]
    rw [runLoop, hra]
    simp only []
    rcases hr2 : runLoop 0 (-1) false mr d 0 (mr + 1)
        ⟨none, evs, d, [⟨false, some rb, some fb.length⟩]⟩ with ⟨res, stx⟩
    have hnr := runLoop_no_restart 0 (-1) mr d (mr + 1) 0
      ⟨none, evs, d, [⟨false, some rb, some fb.length⟩]⟩
    rw [hr2] at hnr
    cases res with
    | success => rfl
    | failure => rfl
    | restart => exact absurd rfl hnr
  · intro r hr
    rcases runLoop_rangeStart 0 (-1) false mr d (mr + 1) 0
        ⟨none, evs, d, [⟨false, some rb, some fb.length⟩]⟩ r hr with h | h | h
    · simp only [List.mem_singleton] at h
      exact Or.inl h
    · exact Or.inr (Or.inl h)
    · refine Or.inr (Or.inr ?_)
      rw [h]
      simp

/-- Witness for C8 on a concrete 416-then-success scenario. -/
theorem http416_fallback_restarts_fresh_witness :
    stream_to_file 5 10 true 1
      ⟨some [1, 2, 3, 4, 5], .response 416 none [] false ::
        [.response 200 (some 2) [[8, 8]] false], 3, []⟩ =
      runLoop 0 (-1) false 1 3 0 2
        ⟨none, [.response 200 (some 2) [[8, 8]] false], 3,
          [⟨false, some 5, some ([1, 2, 3, 4, 5] : List Nat).length⟩]⟩ ∧
    (runLoop 0 (-1) false 1 3 0 2
        ⟨none, [.response 200 (some 2) [[8, 8]] false], 3,
          [⟨false, some 5, some ([1, 2, 3, 4, 5] : List Nat).length⟩]⟩).1 ≠ .restart ∧
    (∀ r ∈ (runLoop 0 (-1) false 1 3 0 2
        ⟨none, [.response 200 (some 2) [[8, 8]] false], 3,
          [⟨false, some 5, some ([1, 2, 3, 4, 5] : List Nat).length⟩]⟩).2.trace,
      r = ⟨false, some 5, some ([1, 2, 3, 4, 5] : List Nat).length⟩ ∨
        r.isHead = true ∨ r.rangeStart = none) :=
  http416_fallback_restarts_fresh 5 10 1 [1, 2, 3, 4, 5] 3 none [] false
    [.response 200 (some 2) [[8, 8]] false] (by decide) (by decide)

end GibMacOS
